import Mathlib

/-
Verification of src/advanced-vector/vector.h: a shallow embedding of the
`RawMemory<T>` / `Vector<T>` pair and proofs about the spec's claims.

Modelling conventions:
* An element type `T` is modelled by a Lean type `α` with `[Inhabited α]`;
  `default` stands for the value produced by `T`'s default constructor
  (the model instantiates class types whose default construction yields a
  well-defined default value).
* A vector's observable state is `(capacity, list of live element values)`;
  `size_` is the length of the list of live values.
* Moves of elements are value-preserving (move = copy at the value level);
  every slot the code leaves moved-from is either overwritten or destroyed
  before it is observed, except where explicitly modelled otherwise.
* Calls into the C++ standard library (`std::move_backward`,
  `std::uninitialized_copy_n`, ...) are embedded by their documented
  semantics; a call that violates the library's preconditions (an invalid
  range) is undefined behaviour and is modelled as `none`.
-/

set_option linter.unusedSectionVars false

namespace AdvVec

/-- Observable state of `Vector<T>` (vector.h lines 90-324): the buffer
capacity `cap` (`data_.Capacity()`) and the list `elems` of live element
values in slots `[0, size_)`; `size_` is `elems.length`. -/
structure Vector (α : Type) where
  cap : Nat
  elems : List α
deriving DecidableEq

variable {α : Type} [Inhabited α]

/-- Default constructor `Vector() = default` (line 114): null buffer,
capacity 0, size 0. -/
def Vector.empty : Vector α := ⟨0, []⟩

/-- Size accessor (lines 304-306). -/
def Vector.Size (s : Vector α) : Nat := s.elems.length

/-- Capacity accessor (lines 308-310). -/
def Vector.Capacity (s : Vector α) : Nat := s.cap

/-- Invariant of the data model: the count of live elements never exceeds
the buffer capacity. -/
def Vector.Inv (s : Vector α) : Prop := s.elems.length ≤ s.cap

instance (s : Vector α) : Decidable s.Inv :=
  inferInstanceAs (Decidable (s.elems.length ≤ s.cap))

/-- Append, modelling `PushBack` / `EmplaceBack` (lines 148-172 and
203-220; the two `PushBack` overloads delegate to `EmplaceBack`, and the
forwarding `PushBack` duplicates its body). If `size_ == Capacity()` a new
buffer of capacity `size_ == 0 ? 1 : size_ * 2` is allocated, the new value
is constructed at slot `size_`, the old elements are relocated into slots
`[0, size_)` and the buffers are swapped; otherwise the new value is
constructed in place at slot `size_`. Either way the value result is the
old contents followed by the new value. -/
def Vector.PushBack (s : Vector α) (v : α) : Vector α :=
  if s.elems.length = s.cap then
    ⟨if s.elems.length = 0 then 1 else s.elems.length * 2, s.elems ++ [v]⟩
  else
    ⟨s.cap, s.elems ++ [v]⟩

/-- State resulting from appending each value of `vs` in order to an
initially empty vector. -/
def appendAll (vs : List α) : Vector α := vs.foldl Vector.PushBack Vector.empty

/-- Semantics of `std::move_backward(first, last, res)` on a buffer
modelled as a list, with iterator arguments given as slot indices: moves
the range `[first, last)` so that it ends at `res`, preserving order;
slots outside the target range keep their values (moves are
value-preserving here because every moved-from slot involved is later
overwritten or destroyed). Requires `[first, last)` to be a valid range
whose target fits in the buffer; a call violating that precondition is
undefined behaviour, modelled as `none`. -/
def stdMoveBackward (buf : List α) (first last res : Nat) : Option (List α) :=
  if first ≤ last ∧ last ≤ res ∧ res ≤ buf.length then
    some (buf.take (res - (last - first)) ++
          (buf.drop first).take (last - first) ++ buf.drop res)
  else none

/-- Insert before slot `d`, modelling `Emplace` / `Insert`
(lines 174-201, 222-228) with `d = pos - begin()`; a `pos` outside
`[begin, end]` is a precondition violation, modelled as `none`.
* Growth path (`size_ == Capacity()`): a buffer of capacity
  `size_ == 0 ? 1 : size_ * 2`; the new value is constructed at slot `d`,
  the first `d` old elements are relocated to slots `[0, d)` and the
  remaining `size_ - d` to slots starting at `d + 1`.
* In-place path, `size_ != 0`: `tmp = value`; the last element is
  move-constructed into slot `size_`; `std::move_backward(begin()+d,
  end()-1, end())` shifts `[d, size_-1)` one slot right; `data_[d] = tmp`.
* In-place path, `size_ == 0`: construct at slot 0. -/
def Vector.Emplace (s : Vector α) (d : Nat) (v : α) : Option (Vector α) :=
  if d ≤ s.elems.length then
    if s.elems.length = s.cap then
      some ⟨if s.elems.length = 0 then 1 else s.elems.length * 2,
            s.elems.take d ++ v :: s.elems.drop d⟩
    else if s.elems.length ≠ 0 then
      match stdMoveBackward (s.elems ++ [s.elems.getLastD default]) d
          (s.elems.length - 1) s.elems.length with
      | some buf2 => some ⟨s.cap, buf2.set d v⟩
      | none => none
    else
      some ⟨s.cap, [v]⟩
  else none

/-- Remove the element at slot `d`, modelling `Erase` (lines 230-242) with
`d = pos - begin()` under its precondition `d < size_`: the element at `d`
is destroyed and every following element is shifted one slot left by
move-assignment, then `size_` is decremented. -/
def Vector.Erase (s : Vector α) (d : Nat) : Vector α :=
  ⟨s.cap, s.elems.take d ++ s.elems.drop (d + 1)⟩

/-- Remove the last element, modelling `PopBack` (lines 244-246) under its
precondition `size_ > 0`. -/
def Vector.PopBack (s : Vector α) : Vector α :=
  ⟨s.cap, s.elems.dropLast⟩

/-- Capacity reservation, modelling `Reserve` (lines 248-260): a no-op
when `new_capacity <= data_.Capacity()`, otherwise relocates the live
elements into a fresh buffer of exactly `new_capacity` slots. -/
def Vector.Reserve (s : Vector α) (n : Nat) : Vector α :=
  if n ≤ s.cap then s else ⟨n, s.elems⟩

/-- Resizing, modelling `Resize` (lines 138-146): when shrinking, the
trailing `size_ - new_size` elements are destroyed; otherwise capacity is
reserved for `new_size` and the new trailing slots are default-constructed
(yielding `default`); finally `size_ = new_size`. -/
def Vector.Resize (s : Vector α) (n : Nat) : Vector α :=
  if n < s.elems.length then ⟨s.cap, s.elems.take n⟩
  else
    let s2 := s.Reserve n
    ⟨s2.cap, s2.elems ++ List.replicate (n - s2.elems.length) default⟩

/-- Sized constructor `Vector(size_t)` (lines 116-121): capacity `n`,
`n` value-constructed elements. -/
def Vector.ofSize (n : Nat) : Vector α := ⟨n, List.replicate n default⟩

/-- Copy constructor (lines 123-127): a fresh buffer of capacity
`other.size_` holding copies of the live elements. -/
def Vector.copyOf (s : Vector α) : Vector α := ⟨s.elems.length, s.elems⟩

/-- Move constructor (lines 129-132): the pair (constructed vector, source
after the move); the source is left with a null buffer, capacity 0 and
size 0. -/
def Vector.moveOf (s : Vector α) : Vector α × Vector α :=
  (⟨s.cap, s.elems⟩, ⟨0, []⟩)

/-- Swap (lines 299-302): buffers and sizes are exchanged. -/
def Vector.swapWith (s t : Vector α) : Vector α × Vector α := (t, s)

theorem Vector.PushBack_elems (s : Vector α) (v : α) :
    (s.PushBack v).elems = s.elems ++ [v] := by
  unfold Vector.PushBack
  split <;> rfl

theorem appendAll_go (vs : List α) :
    ∀ s : Vector α, (vs.foldl Vector.PushBack s).elems = s.elems ++ vs := by
  induction vs with
  | nil => intro s; simp
  | cons v vs ih =>
    intro s
    simp [List.foldl_cons, ih, Vector.PushBack_elems]

/-- Claim C1: for every sequence of values appended via PushBack or
EmplaceBack to an initially empty vector, the live elements afterwards are
exactly that sequence in order; in particular `Size()` equals the number
of appended values and element `i` equals the `i`-th appended value. -/
theorem C1_append_sequence (vs : List Int) :
    (appendAll vs).elems = vs ∧ (appendAll vs).Size = vs.length := by
  have h : (appendAll vs).elems = vs := by
    simpa using appendAll_go vs Vector.empty
  exact ⟨h, by simp [Vector.Size, h]⟩

theorem Vector.Inv_PushBack {s : Vector α} (h : s.Inv) (v : α) :
    (s.PushBack v).Inv := by
  unfold Vector.PushBack Vector.Inv at *
  split_ifs with h1 h2 <;>
    simp only [List.length_append, List.length_cons, List.length_nil] <;> omega

theorem Inv_appendAll (vs : List α) : (appendAll vs).Inv := by
  have : ∀ s : Vector α, s.Inv → (vs.foldl Vector.PushBack s).Inv := by
    induction vs with
    | nil => intro s h; simpa using h
    | cons v vs ih =>
      intro s h
      simpa using ih _ (Vector.Inv_PushBack h v)
  exact this Vector.empty (by simp [Vector.empty, Vector.Inv])

/-- Claim C4: along any sequence of appends starting from an empty vector
(the state after the first `k` appends is `appendAll` of the first `k`
values), capacity never decreases at an append, it strictly increases
exactly at the appends where the new size would exceed the prior capacity,
and at such a growth step the new capacity is `max 1 (2 * previous
capacity)`. -/
theorem C4_capacity_growth (vs : List Int) (v : Int) :
    (appendAll vs).cap ≤ ((appendAll vs).PushBack v).cap ∧
    ((appendAll vs).cap < ((appendAll vs).PushBack v).cap ↔
      (appendAll vs).cap < (appendAll vs).Size + 1) ∧
    ((appendAll vs).cap < (appendAll vs).Size + 1 →
      ((appendAll vs).PushBack v).cap = max 1 (2 * (appendAll vs).cap)) := by
  have hinv : (appendAll vs).Inv := Inv_appendAll vs
  unfold Vector.Inv at hinv
  unfold Vector.PushBack Vector.Size
  split_ifs with h1 h2 <;> simp only [] <;> omega

/-- Witness for C4 at a concrete trace: one prior append of `1`, then an
append of `2` (which grows capacity 1 to 2). -/
theorem C4_capacity_growth_witness :
    (appendAll [(1 : Int)]).cap ≤ ((appendAll [(1 : Int)]).PushBack 2).cap ∧
    ((appendAll [(1 : Int)]).cap < ((appendAll [(1 : Int)]).PushBack 2).cap ↔
      (appendAll [(1 : Int)]).cap < (appendAll [(1 : Int)]).Size + 1) ∧
    ((appendAll [(1 : Int)]).cap < (appendAll [(1 : Int)]).Size + 1 →
      ((appendAll [(1 : Int)]).PushBack 2).cap =
        max 1 (2 * (appendAll [(1 : Int)]).cap)) :=
  C4_capacity_growth [1] 2

/-- Claim C2, evaluated at its failing input: inserting at position `end`
into a nonempty vector with spare capacity (here: one live element `10`,
capacity 2, offset `d = 1 = size`, value `20`) takes the in-place branch of
`Emplace`, which calls `std::move_backward(begin() + 1, begin() + 0,
begin() + 1)` — an invalid range (`first` past `last`), undefined
behaviour — so the operation is undefined (`none`) and the claimed
Insert-then-Erase round trip cannot hold there. -/
theorem C2_insert_at_end_undefined :
    Vector.Emplace (⟨2, [10]⟩ : Vector Int) 1 20 = none := by decide

/-- Claim C6: `Resize n` truncates to the first `n` elements when `n` is
below the current size and otherwise keeps the live elements and appends
`n - size` default-valued elements; in both cases the size becomes `n`. -/
theorem C6_resize_spec (s : Vector Int) (n : Nat) :
    (s.Resize n).elems =
      (if n < s.elems.length then s.elems.take n
       else s.elems ++ List.replicate (n - s.elems.length) (default : Int)) ∧
    (s.Resize n).Size = n := by
  unfold Vector.Resize Vector.Reserve Vector.Size
  by_cases h : n < s.elems.length
  · simp [h]; omega
  · by_cases h2 : n ≤ s.cap <;> simp [h, h2] <;> omega

/-- Claim C9, counterexample to the stated capacity progression: the
capacities before any append and after each of the three appends of
`1, 2, 3` to an empty vector are `0, 1, 2, 4`, not `1, 1, 2, 4` (the
default-constructed vector has capacity 0, and no two consecutive states
both have capacity 1). -/
theorem C9_capacity_progression_cx :
    [(appendAll ([] : List Int)).Capacity, (appendAll [(1 : Int)]).Capacity,
     (appendAll [(1 : Int), 2]).Capacity,
     (appendAll [(1 : Int), 2, 3]).Capacity] ≠ [1, 1, 2, 4] := by decide

/-- Claim C9 as amended: starting from an empty vector of integers, the
three appends `1, 2, 3` yield elements `[1, 2, 3]` with size 3 and
capacity 4 (which lies in {3, 4}), the capacity progression being
`0 → 1 → 2 → 4` (starting from capacity 0 before any append); then
`Insert` at offset 1 of value 9 yields `[1, 9, 2, 3]`, `Erase` at offset 2
yields `[1, 9, 3]`, and `PopBack` yields `[1, 9]`. -/
theorem C9_scenario_amended :
    appendAll [(1 : Int), 2, 3] = ⟨4, [1, 2, 3]⟩ ∧
    (appendAll [(1 : Int), 2, 3]).Size = 3 ∧
    [(appendAll ([] : List Int)).Capacity, (appendAll [(1 : Int)]).Capacity,
     (appendAll [(1 : Int), 2]).Capacity,
     (appendAll [(1 : Int), 2, 3]).Capacity] = [0, 1, 2, 4] ∧
    Vector.Emplace (⟨4, [1, 2, 3]⟩ : Vector Int) 1 9 = some ⟨4, [1, 9, 2, 3]⟩ ∧
    Vector.Erase (⟨4, [1, 9, 2, 3]⟩ : Vector Int) 2 = ⟨4, [1, 9, 3]⟩ ∧
    Vector.PopBack (⟨4, [1, 9, 3]⟩ : Vector Int) = ⟨4, [1, 9]⟩ := by decide

/-- State of `RawMemory<T>` (vector.h lines 9-88): the buffer address
(`none` models the null pointer) and the capacity. -/
structure RawMemory where
  buffer : Option Nat
  capacity : Nat
deriving DecidableEq

/-- Result of `RawMemory::operator=(RawMemory&&)`: the destination and
source afterwards, and the list of buffer addresses passed to `Deallocate`
during the operation. -/
structure RawMoveResult where
  dst : RawMemory
  rhs : RawMemory
  freed : List Nat
deriving DecidableEq

/-- Move assignment `RawMemory::operator=(RawMemory&&)` (lines 26-34):
when the two buffer pointers differ, `buffer_` and `capacity_` are
overwritten with the source's fields (plain pointer assignment) and the
source is nulled; `Deallocate` is never called on this path, so `freed` is
always empty. When the pointers coincide nothing happens. -/
def rawMoveAssign (dst rhs : RawMemory) : RawMoveResult :=
  if dst.buffer ≠ rhs.buffer then
    ⟨⟨rhs.buffer, rhs.capacity⟩, ⟨none, 0⟩, []⟩
  else
    ⟨dst, rhs, []⟩

/-- Buffer-address-aware state of `Vector<T>`: the buffer address of its
`RawMemory` (`none` = null), the capacity, and the live element values. -/
structure VectorM (α : Type) where
  addr : Option Nat
  cap : Nat
  elems : List α
deriving DecidableEq

/-- Invariant of the addressed model: live count never exceeds capacity. -/
def VectorM.Inv (m : VectorM α) : Prop := m.elems.length ≤ m.cap

instance (m : VectorM α) : Decidable m.Inv :=
  inferInstanceAs (Decidable (m.elems.length ≤ m.cap))

/-- Element-wise assignment of the first `n` slots of `dst` from `src`
(the loop `for (; i < ...; ++i) data_[i] = rhs.data_[i]`): the first `n`
values come from `src`, the rest keep `dst`'s values. -/
def overwriteN (dst src : List α) (n : Nat) : List α :=
  src.take n ++ dst.drop n

/-- Result of `Vector::operator=(Vector&&)`: both vectors afterwards, the
buffer addresses deallocated during the operation, and the number of
element destructors run on the destination's old elements. -/
structure VecMoveResult (α : Type) where
  dst : VectorM α
  rhs : VectorM α
  freed : List Nat
  destroyed : Nat
deriving DecidableEq

/-- Copy assignment `Vector::operator=(const Vector&)` (lines 262-288).
`sameObj` models the `this != &rhs` identity test. When the source is
strictly larger than the destination's capacity, a copy of the source is
built in a fresh buffer (`fresh` models the address the copy constructor's
allocation returns) and swapped in. Otherwise the existing buffer is
reused: the overlapping prefix is copy-assigned; if the destination was
longer its excess elements are destroyed, and if the source is longer its
excess elements are copy-constructed into the free slots; finally
`size_ = rhs.size_`. -/
def VectorM.copyAssign (sameObj : Bool) (dst rhs : VectorM α) (fresh : Nat) :
    VectorM α :=
  if sameObj then dst
  else if rhs.elems.length > dst.cap then
    ⟨some fresh, rhs.elems.length, rhs.elems⟩
  else if dst.elems.length > rhs.elems.length then
    ⟨dst.addr, dst.cap,
     (overwriteN dst.elems rhs.elems rhs.elems.length).take rhs.elems.length⟩
  else
    ⟨dst.addr, dst.cap,
     overwriteN dst.elems rhs.elems dst.elems.length ++
       rhs.elems.drop dst.elems.length⟩

/-- Move assignment `Vector::operator=(Vector&&)` (lines 290-297): when
the two buffer addresses differ, `data_ = std::move(rhs.data_)` runs the
`RawMemory` move assignment above, then `size_ = rhs.size_` and
`rhs.size_ = 0`. No element destructor is run on the destination's old
elements (`destroyed = 0`) and no buffer is deallocated (`freed` comes
from the raw move assignment, which frees nothing). -/
def VectorM.moveAssign (dst rhs : VectorM α) : VecMoveResult α :=
  if dst.addr ≠ rhs.addr then
    let r := rawMoveAssign ⟨dst.addr, dst.cap⟩ ⟨rhs.addr, rhs.cap⟩
    ⟨⟨r.dst.buffer, r.dst.capacity, rhs.elems⟩,
     ⟨r.rhs.buffer, r.rhs.capacity, []⟩, r.freed, 0⟩
  else
    ⟨dst, rhs, [], 0⟩

/-- Claim C3, evaluated at its failing input: move-assigning between
vectors with distinct buffers (destination: buffer 1, capacity 2, two live
elements; source: buffer 2, capacity 3, one live element) adopts the
source's buffer and size and leaves the source empty, but deallocates no
buffer (`freed = []`, so the destination's old buffer 1 leaks) and runs no
destructor on the destination's two old elements (`destroyed = 0`);
likewise `RawMemory` move assignment between distinct buffers frees
nothing, contradicting the claimed release of the destination's
resources. -/
theorem C3_move_assign_releases_nothing :
    VectorM.moveAssign (⟨some 1, 2, [10, 20]⟩ : VectorM Int) ⟨some 2, 3, [7]⟩ =
      ⟨⟨some 2, 3, [7]⟩, ⟨none, 0, []⟩, [], 0⟩ ∧
    rawMoveAssign ⟨some 1, 4⟩ ⟨some 2, 8⟩ = ⟨⟨some 2, 8⟩, ⟨none, 0⟩, []⟩ := by
  decide

/-- Claim C7: copy-assigning a source whose size does not exceed the
destination's capacity reuses the destination's storage — the buffer
address and capacity are unchanged — and afterwards the destination holds
exactly the source's elements (hence the source's size). -/
theorem C7_copy_assign_no_realloc (dst rhs : VectorM Int) (fresh : Nat)
    (h : rhs.elems.length ≤ dst.cap) :
    (VectorM.copyAssign false dst rhs fresh).addr = dst.addr ∧
    (VectorM.copyAssign false dst rhs fresh).cap = dst.cap ∧
    (VectorM.copyAssign false dst rhs fresh).elems = rhs.elems := by
  have hgt : ¬ rhs.elems.length > dst.cap := by omega
  unfold VectorM.copyAssign overwriteN
  rw [if_neg (by simp), if_neg hgt]
  by_cases h2 : dst.elems.length > rhs.elems.length
  · rw [if_pos h2]
    refine ⟨rfl, rfl, ?_⟩
    show List.take _ (_ ++ _) = _
    rw [List.take_append_of_le_length (by simp)]
    simp
  · rw [if_neg h2]
    refine ⟨rfl, rfl, ?_⟩
    show List.take _ _ ++ List.drop _ _ ++ List.drop _ _ = _
    rw [List.drop_length, List.append_nil, List.take_append_drop]

/-- Witness for C7 at a concrete input: destination with buffer 5,
capacity 4 and elements `[1, 2]`; source with elements `[7, 8, 6]`
(size 3 ≤ capacity 4). -/
theorem C7_copy_assign_no_realloc_witness :
    (VectorM.copyAssign false (⟨some 5, 4, [1, 2]⟩ : VectorM Int)
        ⟨some 9, 2, [7, 8, 6]⟩ 0).addr = some 5 ∧
    (VectorM.copyAssign false (⟨some 5, 4, [1, 2]⟩ : VectorM Int)
        ⟨some 9, 2, [7, 8, 6]⟩ 0).cap = 4 ∧
    (VectorM.copyAssign false (⟨some 5, 4, [1, 2]⟩ : VectorM Int)
        ⟨some 9, 2, [7, 8, 6]⟩ 0).elems = [7, 8, 6] :=
  C7_copy_assign_no_realloc ⟨some 5, 4, [1, 2]⟩ ⟨some 9, 2, [7, 8, 6]⟩ 0
    (by decide)

/-- Claim C10: copy-assigning a vector to itself (`this == &rhs`, the
`sameObj` flag) is a no-op — the size, capacity, buffer address and
elements are all unchanged. -/
theorem C10_self_copy_assign_noop (v : VectorM Int) (fresh : Nat) :
    VectorM.copyAssign true v v fresh = v := rfl

/-- One slot of raw storage: uninitialized, holding a live value, or left
moved-from after its value was relocated into another buffer. -/
inductive Slot (α : Type) where
  | uninit : Slot α
  | live : α → Slot α
  | moved : Slot α
deriving DecidableEq

/-- Slot-level state of `Vector<T>` for the exception-safety analysis of
the append growth path: the capacity, the buffer's slots (one entry per
slot, length = capacity) and `size_`. -/
structure Buf (α : Type) where
  cap : Nat
  slots : List (Slot α)
  size : Nat
deriving DecidableEq

/-- Steps of `EmplaceBack` in source order, recorded as they execute:
allocation of the new buffer (line 206), construction of the new value
into it (line 207), relocation of the existing elements (lines 209/211),
the buffer swap (line 213) and destruction of the old elements
(line 214). -/
inductive Event where
  | allocNew : Event
  | constructNew : Event
  | relocate : Event
  | swapBufs : Event
  | destroyOld : Event
deriving DecidableEq

/-- Relocation `std::uninitialized_move_n(data_.GetAddress(), size_,
reloc.GetAddress())`: the first `n` slots of the target take the (live)
values of the source's first `n` slots. -/
def relocateN (src dst : List (Slot α)) (n : Nat) : List (Slot α) :=
  src.take n ++ dst.drop n

/-- Append with a fallible element constructor, modelling `EmplaceBack`
(lines 203-220) where the construction of the new element (line 207 in the
growth path, line 216 otherwise) may throw: `mk = none` means the
constructor throws, `mk = some v` that it produces `v`. The result is the
propagated exception together with the vector's state at the throw
(`Except.error`), or the state on normal return (`Except.ok`), paired with
the list of steps that executed. In the growth path the new value is
constructed into the freshly allocated buffer before any existing element
is relocated, so a throw happens before the old buffer is touched. -/
def emplaceBackF (s : Buf α) (mk : Option α) :
    Except (Buf α) (Buf α) × List Event :=
  if s.size = s.cap then
    let newCap := if s.size = 0 then 1 else s.size * 2
    let reloc : List (Slot α) := List.replicate newCap Slot.uninit
    match mk with
    | none => (Except.error s, [Event.allocNew])
    | some v =>
      let reloc := reloc.set s.size (Slot.live v)
      let reloc := relocateN s.slots reloc s.size
      (Except.ok ⟨newCap, reloc, s.size + 1⟩,
       [Event.allocNew, Event.constructNew, Event.relocate, Event.swapBufs,
        Event.destroyOld])
  else
    match mk with
    | none => (Except.error s, [])
    | some v => (Except.ok ⟨s.cap, s.slots.set s.size (Slot.live v), s.size + 1⟩, [])

/-- Claim C5: in the growth path of an append (`size_ == Capacity()`), the
new value is constructed into the new buffer before any existing element
is relocated — when its construction throws, only the allocation step has
executed — and the vector (buffer, capacity, size, elements) is left
exactly as it was; on success the construction step precedes the
relocation step. -/
theorem C5_growth_strong_guarantee (s : Buf Int) (v : Int)
    (h : s.size = s.cap) :
    emplaceBackF s none = (Except.error s, [Event.allocNew]) ∧
    (emplaceBackF s (some v)).2 =
      [Event.allocNew, Event.constructNew, Event.relocate, Event.swapBufs,
       Event.destroyOld] := by
  constructor <;> simp [emplaceBackF, h]

/-- Witness for C5 at a concrete full vector: two live elements `10, 20`
with capacity 2 and size 2. -/
theorem C5_growth_strong_guarantee_witness :
    emplaceBackF (⟨2, [Slot.live 10, Slot.live 20], 2⟩ : Buf Int) none =
      (Except.error ⟨2, [Slot.live 10, Slot.live 20], 2⟩, [Event.allocNew]) ∧
    (emplaceBackF (⟨2, [Slot.live 10, Slot.live 20], 2⟩ : Buf Int)
        (some 7)).2 =
      [Event.allocNew, Event.constructNew, Event.relocate, Event.swapBufs,
       Event.destroyOld] :=
  C5_growth_strong_guarantee ⟨2, [Slot.live 10, Slot.live 20], 2⟩ 7 rfl

theorem stdMoveBackward_length {buf out : List α} {f l r : Nat}
    (h : stdMoveBackward buf f l r = some out) : out.length = buf.length := by
  unfold stdMoveBackward at h
  split_ifs at h with hc
  · obtain ⟨h1, h2, h3⟩ := hc
    injection h with h
    subst h
    simp only [List.length_append, List.length_take, List.length_drop]
    omega

theorem Vector.Inv_Emplace {s s' : Vector α} {d : Nat} {v : α}
    (h : s.Inv) (he : s.Emplace d v = some s') : s'.Inv := by
  unfold Vector.Emplace at he
  unfold Vector.Inv at *
  by_cases h1 : d ≤ s.elems.length
  · rw [if_pos h1] at he
    by_cases h2 : s.elems.length = s.cap
    · rw [if_pos h2] at he
      injection he with he
      subst he
      simp only [List.length_append, List.length_take, List.length_cons,
        List.length_drop]
      split_ifs with h0 <;> omega
    · rw [if_neg h2] at he
      by_cases h3 : s.elems.length ≠ 0
      · rw [if_pos h3] at he
        cases hmb : stdMoveBackward (s.elems ++ [s.elems.getLastD default]) d
            (s.elems.length - 1) s.elems.length with
        | none =>
          rw [hmb] at he
          exact absurd he (by simp)
        | some buf2 =>
          rw [hmb] at he
          injection he with he
          subst he
          have hlen := stdMoveBackward_length hmb
          simp only [List.length_append, List.length_cons,
            List.length_nil] at hlen
          simp only [List.length_set]
          omega
      · rw [if_neg h3] at he
        injection he with he
        subst he
        simp only [List.length_cons, List.length_nil]
        omega
  · rw [if_neg h1] at he
    exact absurd he (by simp)

theorem VectorM.Inv_copyAssign {dA tA : VectorM α} (b : Bool) (fresh : Nat)
    (hd : dA.Inv) (hr : tA.Inv) : (VectorM.copyAssign b dA tA fresh).Inv := by
  unfold VectorM.copyAssign overwriteN
  unfold VectorM.Inv at *
  split_ifs with h1 h2 h3 <;>
    (try simp only [List.length_append, List.length_take, List.length_drop]) <;>
    omega

theorem VectorM.Inv_moveAssign {dA tA : VectorM α}
    (hd : dA.Inv) (hr : tA.Inv) :
    (dA.moveAssign tA).dst.Inv ∧ (dA.moveAssign tA).rhs.Inv := by
  unfold VectorM.moveAssign rawMoveAssign
  unfold VectorM.Inv at *
  by_cases h : dA.addr = tA.addr
  · simp [h, hd, hr]
  · simp [h]
    exact hr

/-- Claim C8: the invariant `size ≤ capacity` is preserved by every public
operation of the model — default and sized construction, copy and move
construction, append, insert, erase, pop, reserve, resize, copy and move
assignment, and swap — starting from states that satisfy it (insert, erase
and pop under their preconditions). -/
theorem C8_size_le_cap_invariant (s t : Vector Int) (dA tA : VectorM Int)
    (v : Int) (d n fresh : Nat) (b : Bool)
    (hs : s.Inv) (ht : t.Inv) (hd : dA.Inv) (hr : tA.Inv) :
    (Vector.empty : Vector Int).Inv ∧
    (Vector.ofSize n : Vector Int).Inv ∧
    s.copyOf.Inv ∧
    s.moveOf.1.Inv ∧ s.moveOf.2.Inv ∧
    (s.PushBack v).Inv ∧
    ((s.Emplace d v).getD s).Inv ∧
    (d < s.elems.length → (s.Erase d).Inv) ∧
    (s.elems ≠ [] → s.PopBack.Inv) ∧
    (s.Reserve n).Inv ∧
    (s.Resize n).Inv ∧
    (VectorM.copyAssign b dA tA fresh).Inv ∧
    (dA.moveAssign tA).dst.Inv ∧ (dA.moveAssign tA).rhs.Inv ∧
    (s.swapWith t).1.Inv ∧ (s.swapWith t).2.Inv := by
  refine ⟨by simp [Vector.empty, Vector.Inv], ?_, ?_, ?_, ?_,
    Vector.Inv_PushBack hs v, ?_, ?_, ?_, ?_, ?_,
    VectorM.Inv_copyAssign b fresh hd hr,
    (VectorM.Inv_moveAssign hd hr).1, (VectorM.Inv_moveAssign hd hr).2,
    ht, hs⟩
  · simp [Vector.ofSize, Vector.Inv]
  · simp [Vector.copyOf, Vector.Inv]
  · exact hs
  · simp [Vector.moveOf, Vector.Inv]
  · cases he : s.Emplace d v with
    | none => simpa using hs
    | some s' => simpa using Vector.Inv_Emplace hs he
  · intro hdlt
    unfold Vector.Erase Vector.Inv at *
    simp only [List.length_append, List.length_take, List.length_drop]
    omega
  · intro hne
    unfold Vector.PopBack Vector.Inv at *
    simp only [List.length_dropLast]
    omega
  · unfold Vector.Reserve Vector.Inv at *
    by_cases h1 : n ≤ s.cap
    · rw [if_pos h1]; omega
    · rw [if_neg h1]
      show s.elems.length ≤ n
      omega
  · unfold Vector.Resize Vector.Reserve Vector.Inv at *
    split_ifs with h1 h2 <;>
      simp only [List.length_append, List.length_take,
        List.length_replicate] <;> omega

/-- Witness for C8 at concrete states: `s = ⟨3, [1, 2]⟩`,
`t = ⟨1, [5]⟩`, addressed states with buffers 1 and 2, value 7, offset 1,
target size 4, fresh address 9, flag `false`. -/
theorem C8_size_le_cap_invariant_witness :
    (Vector.empty : Vector Int).Inv ∧
    (Vector.ofSize 4 : Vector Int).Inv ∧
    (Vector.copyOf (⟨3, [1, 2]⟩ : Vector Int)).Inv ∧
    (Vector.moveOf (⟨3, [1, 2]⟩ : Vector Int)).1.Inv ∧
    (Vector.moveOf (⟨3, [1, 2]⟩ : Vector Int)).2.Inv ∧
    (Vector.PushBack (⟨3, [1, 2]⟩ : Vector Int) 7).Inv ∧
    ((Vector.Emplace (⟨3, [1, 2]⟩ : Vector Int) 1 7).getD ⟨3, [1, 2]⟩).Inv ∧
    (1 < (⟨3, [1, 2]⟩ : Vector Int).elems.length →
      (Vector.Erase (⟨3, [1, 2]⟩ : Vector Int) 1).Inv) ∧
    ((⟨3, [1, 2]⟩ : Vector Int).elems ≠ [] →
      (Vector.PopBack (⟨3, [1, 2]⟩ : Vector Int)).Inv) ∧
    (Vector.Reserve (⟨3, [1, 2]⟩ : Vector Int) 4).Inv ∧
    (Vector.Resize (⟨3, [1, 2]⟩ : Vector Int) 4).Inv ∧
    (VectorM.copyAssign false (⟨some 1, 2, [10, 20]⟩ : VectorM Int)
        ⟨some 2, 3, [7]⟩ 9).Inv ∧
    (VectorM.moveAssign (⟨some 1, 2, [10, 20]⟩ : VectorM Int)
        ⟨some 2, 3, [7]⟩).dst.Inv ∧
    (VectorM.moveAssign (⟨some 1, 2, [10, 20]⟩ : VectorM Int)
        ⟨some 2, 3, [7]⟩).rhs.Inv ∧
    (Vector.swapWith (⟨3, [1, 2]⟩ : Vector Int) ⟨1, [5]⟩).1.Inv ∧
    (Vector.swapWith (⟨3, [1, 2]⟩ : Vector Int) ⟨1, [5]⟩).2.Inv :=
  C8_size_le_cap_invariant ⟨3, [1, 2]⟩ ⟨1, [5]⟩ ⟨some 1, 2, [10, 20]⟩
    ⟨some 2, 3, [7]⟩ 7 1 4 9 false (by decide) (by decide) (by decide)
    (by decide)

end AdvVec
